import Mathlib

/-!
Verification of the deepfake-detection web application (`r2.py`).

The development shallowly embeds the pieces of the program that the
behavioural claims are about: the classification threshold, the image
preprocessing and heatmap pipeline, the SQLite-backed user and prediction
storage, the session state machine, the model-artifact loader, and the
password hashing used at signup.  Machine integers are modelled as `Nat`
with explicit truncation where the program truncates; floating-point
scores are modelled as exact rationals; pixel values are natural numbers
in `0..255`.  External library calls (OpenCV, gdown, joblib, hashlib) are
modelled by executable Lean functions faithful to their documented
behaviour; each such model carries a doc comment saying what it stands for.
-/

/-! ## Classification threshold (detector page and history page) -/

/-- Status string shown on the detector page:
`"⚠️ Deepfake Detected" if prediction >= 0.55 else "✅ Real Image"`. -/
def detectorStatus (prediction : ℚ) : String :=
  if 55/100 ≤ prediction then "⚠️ Deepfake Detected" else "✅ Real Image"

/-- Status string shown in the history page:
`"Deepfake" if result >= 0.55 else "Real"`. -/
def historyStatus (result : ℚ) : String :=
  if 55/100 ≤ result then "Deepfake" else "Real"

/-! ## Images and the preprocessing pipeline

An image is a list of rows, each row a list of pixels; a pixel is a
channel triple of naturals (intended range `0..255`).  The channel order
of a triple is meaningful: uploaded images are RGB, and the pipeline
converts them to BGR before resizing. -/

/-- A pixel: an ordered channel triple. -/
abbrev Pixel : Type := Nat × Nat × Nat

/-- An image: rows of pixels. -/
abbrev Img : Type := List (List Pixel)

/-- All channel values of every pixel lie in the byte range `0..255`. -/
def ValidImage (img : Img) : Prop :=
  ∀ row ∈ img, ∀ p ∈ row, p.1 ≤ 255 ∧ p.2.1 ≤ 255 ∧ p.2.2 ≤ 255

instance (img : Img) : Decidable (ValidImage img) := by
  unfold ValidImage; infer_instance

/-- `cv2.cvtColor(·, cv2.COLOR_RGB2BGR)` on one pixel: reverse the
channel order of the triple. -/
def bgrOfRgb (p : Pixel) : Pixel := (p.2.2, p.2.1, p.1)

/-- Pixel lookup with the all-zero pixel as out-of-range default. -/
def getPx (img : Img) (i j : Nat) : Pixel := (img.getD i []).getD j (0, 0, 0)

/-- Modelled from the external `cv2.resize(src, (tw, th))`: resampling of
the source image to `th` rows by `tw` columns.  The resampling is modelled
as nearest-neighbour source lookup, which preserves the pixel value range;
the claims proved below do not depend on the interpolation kernel. -/
def cvResize (img : Img) (tw th : Nat) : Img :=
  (List.range th).map fun i =>
    (List.range tw).map fun j =>
      getPx img (i * img.length / th) (j * (img.headD []).length / tw)

/-- `resized = cv2.resize(img_bgr, target_size)` with the call-site
default `target_size = (128, 128)`, applied to the BGR conversion of the
uploaded RGB image. -/
def resizedOf (img : Img) : Img :=
  cvResize (img.map (List.map bgrOfRgb)) 128 128

/-- `normalized = resized.astype("float32") / 255.0`, one pixel becoming
the three-element channel list of the tensor (exact rationals stand in
for the float values). -/
def normalizedPixel (p : Pixel) : List ℚ :=
  [(p.1 : ℚ) / 255, (p.2.1 : ℚ) / 255, (p.2.2 : ℚ) / 255]

/-- The normalized 128×128×3 tensor body. -/
def normalizedOf (img : Img) : List (List (List ℚ)) :=
  (resizedOf img).map fun row => row.map normalizedPixel

/-- `np.uint8(255 * normalized.mean(axis=2))` on one pixel: the mean of
the three channels of `v/255`, rescaled by `255`, is exactly
`(b + g + r) / 3`; the `uint8` cast truncates, which is `Nat` floor
division here. -/
def grayOf (p : Pixel) : Nat := (p.1 + p.2.1 + p.2.2) / 3

/-- One channel of the jet palette at intensity `v ∈ 0..255`: the value
`255 · clamp₀₁(3/2 − |4·v/255 − c|)` with floor rounding, computed in
integers as `clamp₀₂₅₅(382 − |4v − 255c|)`; `c = 1, 2, 3` gives the
blue, green and red channel respectively. -/
def jetChan (c v : Nat) : Nat :=
  (((382 : Int) - ((4 * (v : Int) - 255 * (c : Int)).natAbs : Int)).toNat).min 255

/-- Modelled from the external `cv2.applyColorMap(·, cv2.COLORMAP_JET)`
on one intensity value: the fixed jet palette, as a BGR triple.  The
claims below depend only on this being a fixed deterministic palette. -/
def colormapJet (v : Nat) : Pixel := (jetChan 1 v, jetChan 2 v, jetChan 3 v)

/-- `heatmap = cv2.applyColorMap(np.uint8(255 * normalized.mean(axis=2)),
cv2.COLORMAP_JET)`: the fixed palette applied to the per-pixel channel
mean of the resized BGR image. -/
def heatmapOf (img : Img) : Img :=
  (resizedOf img).map fun row => row.map fun p => colormapJet (grayOf p)

/-- `preprocess_image(image)`: returns the pair of
`np.expand_dims(normalized, axis=0)` (the tensor, with a leading
singleton axis) and the heatmap. -/
def preprocess_image (img : Img) : List (List (List (List ℚ))) × Img :=
  ([normalizedOf img], heatmapOf img)

/-! ## The visualizer the specification describes

The specification says the overlay is produced by converting the image to
grayscale, normalizing intensity to the full 0–255 range, applying the
fixed palette, and alpha-blending the result 60/40 over the resized
original.  The following definitions state that pipeline so it can be
compared with `heatmapOf` above.  Where the specification leaves a choice
open, the choice made here is the one closest to the program (the same
channel-mean grayscale and the same fixed palette). -/

/-- Minimum of a grayscale image, starting from the largest byte value
(computed rowwise to keep evaluation shallow). -/
def minGray (g : List (List Nat)) : Nat :=
  (g.map fun row => row.foldr Nat.min 255).foldr Nat.min 255

/-- Maximum of a grayscale image. -/
def maxGray (g : List (List Nat)) : Nat :=
  (g.map fun row => row.foldr Nat.max 0).foldr Nat.max 0

/-- Min-max normalization of one intensity to the full `0..255` range
(identity on a constant image, where the stretch is undefined). -/
def normalizeFull (lo hi g : Nat) : Nat :=
  if hi = lo then g else (g - lo) * 255 / (hi - lo)

/-- 60/40 alpha blend of two pixels, channelwise, with the byte
truncation `⌊(6h + 4p)/10⌋`. -/
def blend6040 (h p : Pixel) : Pixel :=
  ((6 * h.1 + 4 * p.1) / 10, (6 * h.2.1 + 4 * p.2.1) / 10, (6 * h.2.2 + 4 * p.2.2) / 10)

/-- The overlay described by the specification: grayscale, full-range
intensity normalization, fixed palette, 60/40 alpha blend over the
resized original. -/
def specOverlay (img : Img) : Img :=
  let res := resizedOf img
  let grays := res.map fun row => row.map grayOf
  let lo := minGray grays
  let hi := maxGray grays
  (res.zip grays).map fun rg =>
    (rg.1.zip rg.2).map fun pg =>
      blend6040 (colormapJet (normalizeFull lo hi pg.2)) pg.1

/-- Concrete 1×4 RGB image used to separate `heatmapOf` from
`specOverlay`: its first two pixels have the same channel mean but
different channels, and it spans the full intensity range. -/
def imgC4 : Img :=
  [[(30, 60, 90), (90, 60, 30), (0, 0, 0), (255, 255, 255)]]

/-! ## SHA-256 and password hashing

`hash_password(password)` is `hashlib.sha256(password.encode()).hexdigest()`.
The external `hashlib.sha256` is modelled by a full SHA-256 implementation
over `Nat` with explicit truncation modulo `2^32`; `str.encode()` is the
UTF-8 encoding of the string. -/

/-- Truncation to a 32-bit word. -/
def m32 (n : Nat) : Nat := n % 4294967296

/-- Right rotation of a 32-bit word by `k` bits. -/
def rotr32 (k w : Nat) : Nat := m32 ((w >>> k) ||| (w <<< (32 - k)))

/-- SHA-256 big sigma-0. -/
def bsig0 (w : Nat) : Nat := rotr32 2 w ^^^ rotr32 13 w ^^^ rotr32 22 w

/-- SHA-256 big sigma-1. -/
def bsig1 (w : Nat) : Nat := rotr32 6 w ^^^ rotr32 11 w ^^^ rotr32 25 w

/-- SHA-256 small sigma-0. -/
def ssig0 (w : Nat) : Nat := rotr32 7 w ^^^ rotr32 18 w ^^^ (w >>> 3)

/-- SHA-256 small sigma-1. -/
def ssig1 (w : Nat) : Nat := rotr32 17 w ^^^ rotr32 19 w ^^^ (w >>> 10)

/-- SHA-256 choice function (`not` is xor with the all-ones word). -/
def chV (e f g : Nat) : Nat := (e &&& f) ^^^ ((e ^^^ 4294967295) &&& g)

/-- SHA-256 majority function. -/
def majV (a b c : Nat) : Nat := (a &&& b) ^^^ (a &&& c) ^^^ (b &&& c)

/-- Primality by trial division (used only to generate the SHA-256
constants). -/
def isPrimeNat (n : Nat) : Bool :=
  decide (2 ≤ n) && ((List.range n).drop 2).all fun d => n % d != 0

/-- The first `k` primes. -/
def firstPrimes (k : Nat) : List Nat :=
  ((List.range 400).filter isPrimeNat).take k

/-- Floor cube root by bisection on the invariant `lo³ ≤ n < hi³`. -/
def cbrtAux (n : Nat) : Nat → Nat → Nat → Nat
  | 0, lo, _ => lo
  | fuel + 1, lo, hi =>
    if hi ≤ lo + 1 then lo
    else
      let mid := (lo + hi) / 2
      if mid ^ 3 ≤ n then cbrtAux n fuel mid hi else cbrtAux n fuel lo mid

/-- Floor cube root of a natural number. -/
def cbrt (n : Nat) : Nat := cbrtAux n 200 0 (n + 2)

/-- The 64 SHA-256 round constants: the first 32 bits of the fractional
parts of the cube roots of the first 64 primes,
`⌊2³² · ∛p⌋ mod 2³²` computed as `⌊∛(p · 2⁹⁶)⌋ mod 2³²`. -/
def shaK : List Nat :=
  (firstPrimes 64).map fun p => cbrt (p <<< 96) % 4294967296

/-- The SHA-256 initial hash value: the first 32 bits of the fractional
parts of the square roots of the first 8 primes. -/
def shaH0 : List Nat :=
  (firstPrimes 8).map fun p => Nat.sqrt (p <<< 64) % 4294967296

/-- Extend a 16-word message schedule by `n` further words. -/
def extendW (ws : List Nat) : Nat → List Nat
  | 0 => ws
  | n + 1 =>
    let ws' := extendW ws n
    ws' ++ [m32 (ssig1 (ws'.getD (ws'.length - 2) 0) + ws'.getD (ws'.length - 7) 0 +
                 ssig0 (ws'.getD (ws'.length - 15) 0) + ws'.getD (ws'.length - 16) 0)]

/-- One SHA-256 compression round on the eight-word working state. -/
def compressStep (w k : Nat) (st : List Nat) : List Nat :=
  let a := st.getD 0 0
  let b := st.getD 1 0
  let c := st.getD 2 0
  let d := st.getD 3 0
  let e := st.getD 4 0
  let f := st.getD 5 0
  let g := st.getD 6 0
  let h := st.getD 7 0
  let t1 := m32 (h + bsig1 e + chV e f g + k + w)
  let t2 := m32 (bsig0 a + majV a b c)
  [m32 (t1 + t2), a, b, c, m32 (d + t1), e, f, g]

/-- Process one 512-bit chunk (given as its 16 words). -/
def compressChunk (h ws : List Nat) : List Nat :=
  let w64 := extendW ws 48
  let st := (List.range 64).foldl (fun st i => compressStep (w64.getD i 0) (shaK.getD i 0) st) h
  (h.zip st).map fun p => m32 (p.1 + p.2)

/-- Big-endian 32-bit words of a 64-byte chunk. -/
def wordsOfChunk (bytes : List Nat) : List Nat :=
  (List.range 16).map fun i =>
    bytes.getD (4 * i) 0 * 16777216 + bytes.getD (4 * i + 1) 0 * 65536 +
    bytes.getD (4 * i + 2) 0 * 256 + bytes.getD (4 * i + 3) 0

/-- Split into `n` chunks of 64 bytes. -/
def chunks64 : Nat → List Nat → List (List Nat)
  | 0, _ => []
  | n + 1, bs => bs.take 64 :: chunks64 n (bs.drop 64)

/-- SHA-256 padding: a `0x80` byte, zeros, and the 64-bit big-endian bit
length, to a multiple of 64 bytes. -/
def sha256Pad (msg : List Nat) : List Nat :=
  msg ++ [128] ++ List.replicate ((119 - msg.length % 64) % 64) 0 ++
    ((List.range 8).map fun i => ((8 * msg.length) >>> (8 * (7 - i))) % 256)

/-- The eight 32-bit words of the SHA-256 digest of a byte string. -/
def sha256Words (msg : List Nat) : List Nat :=
  (chunks64 ((sha256Pad msg).length / 64) (sha256Pad msg)).foldl
    (fun h c => compressChunk h (wordsOfChunk c)) shaH0

/-- Lower-case hex digit. -/
def hexDigit (n : Nat) : Char :=
  if n < 10 then Char.ofNat (48 + n) else Char.ofNat (87 + n)

/-- Eight hex digits of a 32-bit word, most significant first. -/
def hexWord8 (w : Nat) : List Char :=
  (List.range 8).map fun i => hexDigit ((w >>> (4 * (7 - i))) % 16)

/-- Lower-case hex digest of a byte string. -/
def sha256Hex (msg : List Nat) : String :=
  ⟨(sha256Words msg).foldr (fun w acc => hexWord8 w ++ acc) []⟩

/-- UTF-8 bytes of one character. -/
def charUtf8 (c : Char) : List Nat :=
  let n := c.toNat
  if n < 128 then [n]
  else if n < 2048 then [192 + n / 64, 128 + n % 64]
  else if n < 65536 then [224 + n / 4096, 128 + n / 64 % 64, 128 + n % 64]
  else [240 + n / 262144, 128 + n / 4096 % 64, 128 + n / 64 % 64, 128 + n % 64]

/-- `password.encode()`: UTF-8 bytes of a string. -/
def utf8Bytes (s : String) : List Nat :=
  s.data.foldr (fun c acc => charUtf8 c ++ acc) []

/-- `hash_password(password)`:
`hashlib.sha256(password.encode()).hexdigest()`. -/
def hash_password (password : String) : String :=
  sha256Hex (utf8Bytes password)

/-! ## Database model

The SQLite database `deepfake_users.db` has a `users` table
(`id, username UNIQUE, password, email`) and a `predictions` table
(`id, user_id, timestamp, filename, result, heatmap`).  Tables are
modelled as row lists; whether the `predictions` table exists and whether
it has the `heatmap` column are part of the state `init_db` inspects. -/

/-- One row of the `users` table. -/
structure UserRow where
  id : Nat
  username : String
  password : String
  email : String
deriving DecidableEq

/-- One row of the `predictions` table. -/
structure PredRow where
  user_id : Nat
  timestamp : String
  filename : String
  result : ℚ
  heatmap : List Nat
deriving DecidableEq

/-- The `predictions` table: its rows, and whether its schema has the
`heatmap` column (the only schema aspect `init_db` checks). -/
structure PredTable where
  hasHeatmapColumn : Bool
  rows : List PredRow
deriving DecidableEq

/-- The database: each table is `none` when it does not exist. -/
structure DB where
  users : Option (List UserRow)
  predictions : Option PredTable
deriving DecidableEq

/-- `init_db()`: `CREATE TABLE IF NOT EXISTS users ...` keeps an existing
users table and creates an empty one otherwise; then
`PRAGMA table_info(predictions)` is consulted and, if the `heatmap`
column is absent (in particular when the table does not exist),
`DROP TABLE IF EXISTS predictions` followed by `CREATE TABLE predictions ...`
replaces the table with an empty one of the new schema. -/
def init_db (db : DB) : DB :=
  { users := some (db.users.getD [])
    predictions :=
      match db.predictions with
      | some t => if t.hasHeatmapColumn then some t else some ⟨true, []⟩
      | none => some ⟨true, []⟩ }

/-- Fresh `INTEGER PRIMARY KEY` for an inserted user row. -/
def newId (users : List UserRow) : Nat :=
  users.foldr (fun r a => Nat.max r.id a) 0 + 1

/-- The signup handler's
`INSERT INTO users (username, password, email) VALUES (?, ?, ?)` with
values `(username, hash_password(password), email)`: the UNIQUE
constraint on `username` makes the insert fail (`sqlite3.IntegrityError`,
reported as "Username already exists") and leave the table unchanged when
the username is taken; otherwise the row is added.  The second component
reports success. -/
def signup (users : List UserRow) (username password email : String) :
    List UserRow × Bool :=
  if users.any fun r => r.username = username then (users, false)
  else (users ++ [⟨newId users, username, hash_password password, email⟩], true)

/-- `SELECT id, password FROM users WHERE username=?`: the first matching
row, if any. -/
def findUser (users : List UserRow) (username : String) : Option UserRow :=
  users.find? fun r => r.username = username

/-- The credential stored for a username (the `password` column of its
row). -/
def storedCredential (users : List UserRow) (username : String) : Option String :=
  (findUser users username).map fun r => r.password

/-- Descending-timestamp comparison used by `ORDER BY timestamp DESC`:
SQLite compares TEXT values bytewise, which on these ISO-8601 strings is
the lexicographic order of their characters. -/
def tsDesc (a b : PredRow) : Prop := b.timestamp.data ≤ a.timestamp.data

instance : DecidableRel tsDesc :=
  fun a b => inferInstanceAs (Decidable (b.timestamp.data ≤ a.timestamp.data))

instance : IsTotal PredRow tsDesc := ⟨fun a b => le_total b.timestamp.data a.timestamp.data⟩

instance : IsTrans PredRow tsDesc := ⟨fun _ _ _ h₁ h₂ => le_trans h₂ h₁⟩

/-- The history page's
`SELECT ... FROM predictions WHERE user_id=? ORDER BY timestamp DESC`:
the rows of the given user, sorted by descending timestamp (a stable
sort models the SQL ordering; ties are returned in an unspecified
order). -/
def history_query (preds : List PredRow) (uid : Nat) : List PredRow :=
  List.insertionSort tsDesc (preds.filter fun r => r.user_id = uid)

/-! ## Session state and page routing -/

/-- `st.session_state`: the logged-in flag, the current user id, and the
current page name. -/
structure SessionState where
  logged_in : Bool
  user_id : Option Nat
  page : String
deriving DecidableEq

/-- Session initialization on first view. -/
def initSession : SessionState := ⟨false, none, "Login"⟩

/-- A world: the users table together with one session. -/
structure World where
  users : List UserRow
  session : SessionState
deriving DecidableEq

/-- The discrete user actions the page handlers react to. -/
inductive UserAction where
  | login (username password : String)
  | register (username email password : String)
  | gotoDetector
  | gotoHistory
  | logout
  | gotoLogin
  | gotoSignup

/-- The login form handler: rendered only on the "Login" page while
logged out; on submit it looks the username up and, when the stored
credential matches the hash of the given password, sets
`logged_in := True`, `user_id := result[0]`, `page := "Detector"`;
otherwise it reports "Invalid username or password" and changes
nothing. -/
def loginStep (w : World) (username password : String) : World :=
  if w.session.page = "Login" ∧ w.session.logged_in = false then
    match findUser w.users username with
    | some r =>
      if r.password = hash_password password then
        ⟨w.users, ⟨true, some r.id, "Detector"⟩⟩
      else w
    | none => w
  else w

/-- The signup form handler: rendered only on the "Sign Up" page while
logged out; on success it inserts the user and routes to "Login", on a
duplicate username it reports the error and changes nothing. -/
def signupStep (w : World) (username email password : String) : World :=
  if w.session.page = "Sign Up" ∧ w.session.logged_in = false then
    if (signup w.users username password email).2 then
      ⟨(signup w.users username password email).1,
        ⟨w.session.logged_in, w.session.user_id, "Login"⟩⟩
    else ⟨(signup w.users username password email).1, w.session⟩
  else w

/-- One navigation or form action, as dispatched by `main()`: the
Detector/History/Logout buttons are rendered only while logged in, the
Login/Sign Up buttons only while logged out. -/
def step (w : World) : UserAction → World
  | .login u p => loginStep w u p
  | .register u e p => signupStep w u e p
  | .gotoDetector =>
    if w.session.logged_in then ⟨w.users, ⟨w.session.logged_in, w.session.user_id, "Detector"⟩⟩
    else w
  | .gotoHistory =>
    if w.session.logged_in then ⟨w.users, ⟨w.session.logged_in, w.session.user_id, "History"⟩⟩
    else w
  | .logout =>
    if w.session.logged_in then ⟨w.users, ⟨false, none, "Login"⟩⟩ else w
  | .gotoLogin =>
    if w.session.logged_in then w else ⟨w.users, ⟨w.session.logged_in, w.session.user_id, "Login"⟩⟩
  | .gotoSignup =>
    if w.session.logged_in then w
    else ⟨w.users, ⟨w.session.logged_in, w.session.user_id, "Sign Up"⟩⟩

/-- The worlds reachable from a fresh session over any pre-existing
users table. -/
inductive Reachable : World → Prop where
  | init (users : List UserRow) : Reachable ⟨users, initSession⟩
  | step (w : World) (a : UserAction) : Reachable w → Reachable (step w a)

/-- The inductive session invariant: while logged out the user reference
is unset, and while logged in it refers to a row of the users table. -/
abbrev SessionInv (w : World) : Prop :=
  (w.session.logged_in = false → w.session.user_id = none) ∧
  (w.session.logged_in = true → ∃ r ∈ w.users, w.session.user_id = some r.id)

/-! ## Artifact fetch (`load_model`) -/

/-- Process-level state the model loader touches: the contents of
`deepfake_hybrid_model.pkl` (`none` when the file does not exist) and a
count of network requests made. -/
structure ProcState where
  modelFile : Option (List Nat)
  networkRequests : Nat
deriving DecidableEq

/-- Modelled from the external `gdown.download(url, path)`: one network
request whose body is written to the file. -/
def gdownDownload (remote : List Nat) (s : ProcState) : ProcState :=
  ⟨some remote, s.networkRequests + 1⟩

/-- Modelled from the external `joblib.load(path)`: deserialization of
the file's bytes, failing on bytes that do not deserialize (validity is
abstracted as non-emptiness); it reads the file and changes nothing. -/
def joblibLoad (bytes : List Nat) : Except Unit (List Nat) :=
  if bytes = [] then .error () else .ok bytes

/-- `load_model()`: if `deepfake_hybrid_model.pkl` does not exist,
download it from the drive URL; then `joblib.load` it.  Returns the
state after the call and the load result. -/
def load_model (remote : List Nat) (s : ProcState) :
    ProcState × Except Unit (List Nat) :=
  if s.modelFile.isSome then (s, joblibLoad (s.modelFile.getD []))
  else
    let s' := gdownDownload remote s
    (s', joblibLoad (s'.modelFile.getD []))

/-! ## Lossless image byte encoding

`cv2.imencode('.png', heatmap)` and
`cv2.imdecode(np.frombuffer(bytes), cv2.IMREAD_COLOR)` are external; PNG
is a lossless format, so the pair is modelled as a concrete lossless
serializer: the two dimensions followed by the channel bytes in row-major
order, with decoding validating the byte count. -/

/-- Channel bytes of one row, in order. -/
def encodeRow : List Pixel → List Nat
  | [] => []
  | p :: ps => p.1 :: p.2.1 :: p.2.2 :: encodeRow ps

/-- Channel bytes of all rows. -/
def encodeRows : List (List Pixel) → List Nat
  | [] => []
  | r :: rs => encodeRow r ++ encodeRows rs

/-- Modelled from the external `cv2.imencode('.png', ·)`: a lossless
byte encoding of a rectangular image. -/
def imencodePng (img : Img) : List Nat :=
  img.length :: (img.headD []).length :: encodeRows img

/-- Pixels of one row from its channel bytes. -/
def decodeRow : List Nat → List Pixel
  | b :: g :: r :: rest => (b, g, r) :: decodeRow rest
  | _ => []

/-- Split the payload into `n` rows of `3 * w` bytes each. -/
def decodeRows (w : Nat) : Nat → List Nat → List (List Pixel)
  | 0, _ => []
  | n + 1, bytes => decodeRow (bytes.take (3 * w)) :: decodeRows w n (bytes.drop (3 * w))

/-- Modelled from the external `cv2.imdecode(·, cv2.IMREAD_COLOR)`:
decoding of the byte stream back into an image, failing on a malformed
stream. -/
def imdecodePng (bytes : List Nat) : Option Img :=
  match bytes with
  | h :: w :: rest =>
    if rest.length = h * w * 3 then some (decodeRows w h rest) else none
  | _ => none

/-- A rectangular image: every row has the width of the first row. -/
def Rect (img : Img) : Prop :=
  ∀ row ∈ img, row.length = (img.headD []).length

instance (img : Img) : Decidable (Rect img) := by
  unfold Rect; infer_instance

/-! ## Concrete inputs for counterexamples and witnesses -/

/-- A prediction row present before `init_db` runs. -/
def samplePred : PredRow := ⟨1, "2025-01-01T00:00:00", "a.png", 1, [0]⟩

/-- A database whose `predictions` table exists, has rows, but lacks the
`heatmap` column. -/
def dbMissingHeatmap : DB := ⟨some [], some ⟨false, [samplePred]⟩⟩

/-- A database whose `predictions` table already has the `heatmap`
column. -/
def dbWithHeatmap : DB := ⟨some [], some ⟨true, [samplePred]⟩⟩

/-- Two predictions of the same user with the same timestamp. -/
def predA : PredRow := ⟨1, "2025-01-01T00:00:00", "a.png", 1, []⟩

/-- Second prediction with the identical timestamp. -/
def predB : PredRow := ⟨1, "2025-01-01T00:00:00", "b.png", 0, []⟩

/-- Users table after signing up "alice" with password "secret1". -/
def usersAlice : List UserRow :=
  (signup [] "alice" "secret1" "alice@example.com").1

/-- Users table after additionally signing up "bob" with the same
password "secret1". -/
def usersAliceBob : List UserRow :=
  (signup usersAlice "bob" "secret1" "bob@example.com").1

/-! ## Helper lemmas -/

/-- A `getD` lookup returns an element of the list or the default. -/
theorem getD_mem_or_default {α : Type} (l : List α) (i : Nat) (d : α) :
    l.getD i d ∈ l ∨ l.getD i d = d := by
  induction l generalizing i with
  | nil => right; cases i <;> rfl
  | cons a t ih =>
    cases i with
    | zero => exact .inl (List.mem_cons_self a t)
    | succ n =>
      cases ih n with
      | inl h => exact .inl (List.mem_cons_of_mem a h)
      | inr h => exact .inr h

/-- `getD` commutes with `map` when the default is mapped too. -/
theorem getD_map {α β : Type} (f : α → β) (l : List α) (i : Nat) (d : α) :
    (l.map f).getD i (f d) = f (l.getD i d) := by
  induction l generalizing i with
  | nil => cases i <;> rfl
  | cons a t ih =>
    cases i with
    | zero => rfl
    | succ n => exact ih n

/-- Every row of the users table survives a signup attempt. -/
theorem mem_signup_fst (users : List UserRow) (u p e : String) (r : UserRow)
    (h : r ∈ users) : r ∈ (signup users u p e).1 := by
  unfold signup
  split
  · exact h
  · exact List.mem_append_left _ h

/-- A signup with a username absent from the table succeeds and appends
exactly the new row. -/
theorem signup_fresh_eq (users : List UserRow) (u p e : String)
    (hfresh : ∀ r ∈ users, r.username ≠ u) :
    signup users u p e = (users ++ [⟨newId users, u, hash_password p, e⟩], true) := by
  have hany : (users.any fun r => r.username = u) = false := by
    simp only [List.any_eq_false, decide_eq_true_eq]
    exact hfresh
  simp [signup, hany]

/-! ## Claim C1 -/

/-- Claim C1: for every classifier score `s`, the score is classified as
deepfake when `s ≥ 0.55` and as real when `s < 0.55`, and the boundary
score `s = 0.55` resolves to deepfake both on the detector page and in
the history display. -/
theorem classification_threshold (s : ℚ) :
    (55/100 ≤ s → detectorStatus s = "⚠️ Deepfake Detected" ∧ historyStatus s = "Deepfake") ∧
    (s < 55/100 → detectorStatus s = "✅ Real Image" ∧ historyStatus s = "Real") ∧
    detectorStatus (55/100) = "⚠️ Deepfake Detected" ∧
    historyStatus (55/100) = "Deepfake" := by
  refine ⟨fun h => ?_, fun h => ?_, ?_, ?_⟩
  · rw [detectorStatus, historyStatus, if_pos h, if_pos h]; exact ⟨rfl, rfl⟩
  · rw [detectorStatus, historyStatus, if_neg (not_le.mpr h), if_neg (not_le.mpr h)]
    exact ⟨rfl, rfl⟩
  · rw [detectorStatus, if_pos le_rfl]
  · rw [historyStatus, if_pos le_rfl]

/-- Witness for C1 at the boundary score `0.55 = 11/20`. -/
theorem classification_threshold_witness :
    (55/100 : ℚ) ≤ 11/20 ∧
    (detectorStatus (11/20) = "⚠️ Deepfake Detected" ∧ historyStatus (11/20) = "Deepfake") :=
  ⟨by norm_num, (classification_threshold (11/20)).1 (by norm_num)⟩

/-! ## Claim C3 -/

/-- Claim C3 as stated is false: on a database whose `predictions` table
exists with one row but no `heatmap` column, `init_db` returns a
database whose `predictions` table has no rows — the pre-existing row is
silently deleted rather than migrated, and no error is raised. -/
theorem init_db_drops_rows_counterexample :
    dbMissingHeatmap.predictions.map PredTable.rows = some [samplePred] ∧
    (init_db dbMissingHeatmap).predictions.map PredTable.rows = some [] ∧
    some ([] : List PredRow) ≠ some [samplePred] := by decide

/-- Claim C3 amended: `init_db` never raises an error; it preserves the
users table (creating it empty only when absent) and preserves the
prediction rows exactly when the `heatmap` column is present, but when
the column is absent it drops the table and recreates it empty, silently
deleting any existing rows. -/
theorem init_db_migration_behavior (db : DB) :
    (init_db db).users = some (db.users.getD []) ∧
    (∀ t, db.predictions = some t → t.hasHeatmapColumn = true →
      (init_db db).predictions = some t) ∧
    (∀ t, db.predictions = some t → t.hasHeatmapColumn = false →
      (init_db db).predictions = some ⟨true, []⟩) := by
  refine ⟨rfl, fun t ht hcol => ?_, fun t ht hcol => ?_⟩
  · simp [init_db, ht, hcol]
  · simp [init_db, ht, hcol]

/-- Witness for the amended C3: a table that already has the `heatmap`
column keeps its row. -/
theorem init_db_migration_behavior_witness :
    (init_db dbWithHeatmap).predictions = some ⟨true, [samplePred]⟩ :=
  (init_db_migration_behavior dbWithHeatmap).2.1 ⟨true, [samplePred]⟩ rfl rfl

/-! ## Claim C5 -/

/-- Claim C5 as stated is false: with two predictions of the same user
carrying the identical timestamp, the history query returns both, so the
output is not in strictly descending timestamp order. -/
theorem history_strict_desc_counterexample :
    ¬ ((∀ r ∈ history_query [predA, predB] 1, r.user_id = 1) ∧
       List.Pairwise (fun a b : PredRow => b.timestamp.data < a.timestamp.data)
         (history_query [predA, predB] 1)) := by decide

/-- Claim C5 amended: the history query returns only records of the
queried user, in descending (non-strict: ties are adjacent) timestamp
order. -/
theorem history_query_isolation_sorted (preds : List PredRow) (uid : Nat) :
    (∀ r ∈ history_query preds uid, r.user_id = uid) ∧
    List.Pairwise (fun a b : PredRow => b.timestamp.data ≤ a.timestamp.data)
      (history_query preds uid) := by
  constructor
  · intro r hr
    have hm : r ∈ preds.filter fun r => r.user_id = uid :=
      (List.perm_insertionSort tsDesc _).mem_iff.mp hr
    simpa using (List.mem_filter.mp hm).2
  · exact List.sorted_insertionSort tsDesc _

/-! ## Claim C6 -/

/-- Claim C6: whenever the model file already exists, `load_model`
performs zero network requests and leaves the file unchanged — even when
the existing file is corrupt (the hypothesis places no validity
requirement on the bytes). -/
theorem load_model_no_refetch (remote : List Nat) (s : ProcState) (b : List Nat)
    (h : s.modelFile = some b) :
    (load_model remote s).1.networkRequests = s.networkRequests ∧
    (load_model remote s).1.modelFile = s.modelFile := by
  simp [load_model, h]

/-- Witness for C6 with a corrupt (empty, hence non-deserializable)
existing file. -/
theorem load_model_no_refetch_witness :
    (ProcState.mk (some []) 7).modelFile = some [] ∧
    ((load_model [1] ⟨some [], 7⟩).1.networkRequests = 7 ∧
     (load_model [1] ⟨some [], 7⟩).1.modelFile = some []) :=
  ⟨rfl, load_model_no_refetch [1] ⟨some [], 7⟩ [] rfl⟩

/-! ## Claim C7 -/

/-- Claim C7: a signup with a fresh username succeeds and stores the new
user; a second signup with the same username fails with the
duplicate-username error, and in that case the users table is left
unchanged. -/
theorem signup_duplicate_scenario (users : List UserRow) (u p e p' e' : String)
    (hfresh : ∀ r ∈ users, r.username ≠ u) :
    (signup users u p e).2 = true ∧
    (∃ r ∈ (signup users u p e).1,
      r.username = u ∧ r.password = hash_password p ∧ r.email = e) ∧
    (signup (signup users u p e).1 u p' e').2 = false ∧
    (signup (signup users u p e).1 u p' e').1 = (signup users u p e).1 := by
  have h1 := signup_fresh_eq users u p e hfresh
  have hany2 : ((users ++ [(⟨newId users, u, hash_password p, e⟩ : UserRow)]).any
      fun r => r.username = u) = true := by
    rw [List.any_eq_true]
    exact ⟨⟨newId users, u, hash_password p, e⟩,
      List.mem_append_right users (List.mem_singleton.mpr rfl), by simp⟩
  have h2 : signup (users ++ [(⟨newId users, u, hash_password p, e⟩ : UserRow)]) u p' e' =
      (users ++ [⟨newId users, u, hash_password p, e⟩], false) := by
    simp [signup, hany2]
  refine ⟨by rw [h1], ?_, ?_, ?_⟩
  · refine ⟨⟨newId users, u, hash_password p, e⟩, ?_, rfl, rfl, rfl⟩
    rw [h1]
    exact List.mem_append_right users (List.mem_singleton.mpr rfl)
  · rw [h1]
    simpa using congrArg Prod.snd h2
  · rw [h1]
    simpa using congrArg Prod.fst h2

/-- Witness for C7: the spec's scenario, signing up "alice" twice. -/
theorem signup_duplicate_scenario_witness :
    (signup [] "alice" "secret1" "alice@example.com").2 = true ∧
    (∃ r ∈ (signup [] "alice" "secret1" "alice@example.com").1,
      r.username = "alice" ∧ r.password = hash_password "secret1" ∧
      r.email = "alice@example.com") ∧
    (signup (signup [] "alice" "secret1" "alice@example.com").1 "alice" "secret2" "b@example.com").2 = false ∧
    (signup (signup [] "alice" "secret1" "alice@example.com").1 "alice" "secret2" "b@example.com").1 =
      (signup [] "alice" "secret1" "alice@example.com").1 :=
  signup_duplicate_scenario [] "alice" "secret1" "alice@example.com" "secret2" "b@example.com"
    (by simp)

/-! ## Claim C10 -/

/-- Claim C10 as stated is false: after signing up "alice" and "bob",
two distinct usernames with the same password "secret1", the stored
credential values are identical — the hash is not salted. -/
theorem same_password_same_hash_counterexample :
    "alice" ≠ "bob" ∧
    storedCredential usersAliceBob "alice" = storedCredential usersAliceBob "bob" ∧
    (storedCredential usersAliceBob "alice").isSome = true :=
  ⟨by decide, rfl, rfl⟩

/-- Claim C10 amended: the stored credential is the unsalted SHA-256 hex
digest of the password alone, so any two signups with the same password
— whatever the usernames — store the same credential value. -/
theorem stored_credential_unsalted (users₁ users₂ : List UserRow) (u₁ u₂ p e₁ e₂ : String)
    (h₁ : ∀ r ∈ users₁, r.username ≠ u₁) (h₂ : ∀ r ∈ users₂, r.username ≠ u₂) :
    storedCredential (signup users₁ u₁ p e₁).1 u₁ = some (hash_password p) ∧
    storedCredential (signup users₂ u₂ p e₂).1 u₂ = some (hash_password p) ∧
    storedCredential (signup users₁ u₁ p e₁).1 u₁ =
      storedCredential (signup users₂ u₂ p e₂).1 u₂ := by
  have key : ∀ (users : List UserRow) (u p e : String), (∀ r ∈ users, r.username ≠ u) →
      storedCredential (signup users u p e).1 u = some (hash_password p) := by
    intro users u pw e hf
    have hnone : (users.find? fun r => r.username = u) = none :=
      List.find?_eq_none.mpr (by intro x hx; simpa using hf x hx)
    rw [signup_fresh_eq users u pw e hf]
    simp [storedCredential, findUser, List.find?_append, hnone]
  refine ⟨key users₁ u₁ p e₁ h₁, key users₂ u₂ p e₂ h₂, ?_⟩
  rw [key users₁ u₁ p e₁ h₁, key users₂ u₂ p e₂ h₂]

/-- Witness for the amended C10 at "alice"/"bob" with password
"secret1". -/
theorem stored_credential_unsalted_witness :
    storedCredential (signup [] "alice" "secret1" "a@example.com").1 "alice" =
      some (hash_password "secret1") ∧
    storedCredential (signup [] "bob" "secret1" "b@example.com").1 "bob" =
      some (hash_password "secret1") ∧
    storedCredential (signup [] "alice" "secret1" "a@example.com").1 "alice" =
      storedCredential (signup [] "bob" "secret1" "b@example.com").1 "bob" :=
  stored_credential_unsalted [] [] "alice" "bob" "secret1" "a@example.com" "b@example.com"
    (by simp) (by simp)

/-! ## Claim C9 -/

/-- The session invariant holds initially. -/
theorem session_inv_init (users : List UserRow) :
    SessionInv ⟨users, initSession⟩ :=
  ⟨fun _ => rfl, fun h => nomatch h⟩

/-- Every user action preserves the session invariant. -/
theorem session_inv_step (w : World) (a : UserAction) (h : SessionInv w) :
    SessionInv (step w a) := by
  cases a with
  | login u p =>
    show SessionInv (loginStep w u p)
    unfold loginStep
    split
    · cases hf : findUser w.users u with
      | some r =>
        dsimp only
        split
        · refine ⟨fun hfalse => ?_, fun _ => ?_⟩
          · exact nomatch hfalse
          · exact ⟨r, List.mem_of_find?_eq_some hf, rfl⟩
        · exact h
      | none => exact h
    · exact h
  | register u e p =>
    show SessionInv (signupStep w u e p)
    unfold signupStep
    split
    · split
      · refine ⟨h.1, fun hlt => ?_⟩
        obtain ⟨r, hr, hid⟩ := h.2 hlt
        exact ⟨r, mem_signup_fst w.users u p e r hr, hid⟩
      · refine ⟨h.1, fun hlt => ?_⟩
        obtain ⟨r, hr, hid⟩ := h.2 hlt
        exact ⟨r, mem_signup_fst w.users u p e r hr, hid⟩
    · exact h
  | gotoDetector =>
    show SessionInv (if w.session.logged_in then _ else w)
    split
    · exact ⟨h.1, fun hlt => h.2 hlt⟩
    · exact h
  | gotoHistory =>
    show SessionInv (if w.session.logged_in then _ else w)
    split
    · exact ⟨h.1, fun hlt => h.2 hlt⟩
    · exact h
  | logout =>
    show SessionInv (if w.session.logged_in then _ else w)
    split
    · exact ⟨fun _ => rfl, fun hlt => nomatch hlt⟩
    · exact h
  | gotoLogin =>
    show SessionInv (if w.session.logged_in then w else _)
    split
    · exact h
    · exact ⟨h.1, fun hlt => h.2 hlt⟩
  | gotoSignup =>
    show SessionInv (if w.session.logged_in then w else _)
    split
    · exact h
    · exact ⟨h.1, fun hlt => h.2 hlt⟩

/-- Claim C9: in every reachable world — over any pre-existing users
table, through any sequence of initialization, login, signup, navigation
and logout actions — the logged-in flag is true exactly when the session
user reference is set to the id of a row of the users table. -/
theorem session_logged_in_iff_valid_user (w : World) (h : Reachable w) :
    w.session.logged_in = true ↔ ∃ r ∈ w.users, w.session.user_id = some r.id := by
  have inv : SessionInv w := by
    induction h with
    | init users => exact session_inv_init users
    | step w a _ ih => exact session_inv_step w a ih
  refine ⟨inv.2, fun ⟨r, _, hid⟩ => ?_⟩
  cases hb : w.session.logged_in with
  | true => rfl
  | false =>
    rw [inv.1 hb] at hid
    exact nomatch hid

/-- Witness for C9: the invariant at the concrete initial world. -/
theorem session_logged_in_iff_valid_user_witness :
    (World.mk [] initSession).session.logged_in = true ↔
      ∃ r ∈ (World.mk [] initSession).users,
        (World.mk [] initSession).session.user_id = some r.id :=
  session_logged_in_iff_valid_user (World.mk [] initSession) (Reachable.init [])

/-! ## Claim C2 -/

/-- Claim C2: for every valid RGB input image, with the fixed call-site
target size 128×128, `preprocess_image` returns a tensor of exactly the
shape `(1, 128, 128, 3)` with every element in `[0, 1]`. -/
theorem preprocess_image_shape_bounds (img : Img) (hv : ValidImage img) :
    (preprocess_image img).1.length = 1 ∧
    ∀ plane ∈ (preprocess_image img).1, plane.length = 128 ∧
      ∀ row ∈ plane, row.length = 128 ∧
        ∀ px ∈ row, px.length = 3 ∧ ∀ v ∈ px, 0 ≤ v ∧ v ≤ 1 := by
  have hbgr : ValidImage (img.map (List.map bgrOfRgb)) := by
    intro row hrow p hp
    obtain ⟨row₀, hrow₀, rfl⟩ := List.mem_map.mp hrow
    obtain ⟨p₀, hp₀, rfl⟩ := List.mem_map.mp hp
    obtain ⟨h1, h2, h3⟩ := hv row₀ hrow₀ p₀ hp₀
    exact ⟨h3, h2, h1⟩
  have hpx : ∀ i j, (getPx (img.map (List.map bgrOfRgb)) i j).1 ≤ 255 ∧
      (getPx (img.map (List.map bgrOfRgb)) i j).2.1 ≤ 255 ∧
      (getPx (img.map (List.map bgrOfRgb)) i j).2.2 ≤ 255 := by
    intro i j
    unfold getPx
    rcases getD_mem_or_default ((img.map (List.map bgrOfRgb)).getD i []) j (0, 0, 0) with
      hp | hp
    · rcases getD_mem_or_default (img.map (List.map bgrOfRgb)) i [] with hrow | hrow
      · exact hbgr _ hrow _ hp
      · rw [hrow] at hp
        exact absurd hp (List.not_mem_nil _)
    · rw [hp]
      exact ⟨by decide, by decide, by decide⟩
  have hrange : ∀ c : Nat, c ≤ 255 → 0 ≤ (c : ℚ) / 255 ∧ (c : ℚ) / 255 ≤ 1 := by
    intro c hc
    constructor
    · positivity
    · rw [div_le_one (by norm_num : (0 : ℚ) < 255)]
      exact_mod_cast hc
  refine ⟨rfl, fun plane hplane => ?_⟩
  have hpl : plane = normalizedOf img := by
    simpa [preprocess_image] using hplane
  subst hpl
  constructor
  · simp [normalizedOf, resizedOf, cvResize]
  intro row hrow
  obtain ⟨row₀, hrow₀, rfl⟩ := List.mem_map.mp hrow
  rw [resizedOf, cvResize] at hrow₀
  obtain ⟨i, _, rfl⟩ := List.mem_map.mp hrow₀
  constructor
  · simp
  intro px hpxmem
  obtain ⟨p, hp, rfl⟩ := List.mem_map.mp hpxmem
  obtain ⟨j, _, rfl⟩ := List.mem_map.mp hp
  refine ⟨rfl, fun v hvmem => ?_⟩
  simp only [normalizedPixel, List.mem_cons, List.not_mem_nil, or_false] at hvmem
  rcases hvmem with rfl | rfl | rfl
  · exact hrange _ (hpx _ _).1
  · exact hrange _ (hpx _ _).2.1
  · exact hrange _ (hpx _ _).2.2

/-- Witness for C2 at a 1×1 black image. -/
theorem preprocess_image_shape_bounds_witness :
    ValidImage [[((0, 0, 0) : Pixel)]] ∧
    ((preprocess_image [[((0, 0, 0) : Pixel)]]).1.length = 1 ∧
     ∀ plane ∈ (preprocess_image [[((0, 0, 0) : Pixel)]]).1, plane.length = 128 ∧
       ∀ row ∈ plane, row.length = 128 ∧
         ∀ px ∈ row, px.length = 3 ∧ ∀ v ∈ px, 0 ≤ v ∧ v ≤ 1) :=
  ⟨by decide, preprocess_image_shape_bounds [[(0, 0, 0)]] (by decide)⟩

/-! ## Claim C8 -/

/-- The byte encoding of a row has three bytes per pixel. -/
theorem encodeRow_length (row : List Pixel) : (encodeRow row).length = 3 * row.length := by
  induction row with
  | nil => rfl
  | cons p ps ih =>
    simp only [encodeRow, List.length_cons, ih]
    omega

/-- Decoding inverts the encoding of one row. -/
theorem decodeRow_encodeRow (row : List Pixel) : decodeRow (encodeRow row) = row := by
  induction row with
  | nil => rfl
  | cons p ps ih =>
    show (p.1, p.2.1, p.2.2) :: decodeRow (encodeRow ps) = p :: ps
    rw [ih]

/-- Total byte length of the encoded rows of a rectangular image. -/
theorem encodeRows_length (img : Img) (w : Nat) (hw : ∀ row ∈ img, row.length = w) :
    (encodeRows img).length = img.length * (3 * w) := by
  induction img with
  | nil => simp [encodeRows]
  | cons r rs ih =>
    have hr : r.length = w := hw r (List.mem_cons_self r rs)
    have ih' := ih fun row h => hw row (List.mem_cons_of_mem r h)
    simp only [encodeRows, List.length_append, encodeRow_length, hr, ih', List.length_cons]
    ring

/-- Decoding inverts the encoding of the row block. -/
theorem decodeRows_encodeRows (img : Img) (w : Nat) (hw : ∀ row ∈ img, row.length = w) :
    decodeRows w img.length (encodeRows img) = img := by
  induction img with
  | nil => rfl
  | cons r rs ih =>
    have hr : (encodeRow r).length = 3 * w := by
      rw [encodeRow_length, hw r (List.mem_cons_self r rs)]
    show decodeRow ((encodeRow r ++ encodeRows rs).take (3 * w)) ::
        decodeRows w rs.length ((encodeRow r ++ encodeRows rs).drop (3 * w)) = r :: rs
    rw [← hr, List.take_left, List.drop_left, decodeRow_encodeRow,
      ih fun row h => hw row (List.mem_cons_of_mem r h)]

/-- Claim C8: encoding an overlay image to bytes when recording an
analysis and decoding those bytes back when viewing history yields the
pixel-identical image. -/
theorem png_roundtrip (img : Img) (hrect : Rect img) (_hv : ValidImage img) :
    imdecodePng (imencodePng img) = some img := by
  have hlen : (encodeRows img).length = img.length * (img.headD []).length * 3 := by
    rw [encodeRows_length img (img.headD []).length hrect]
    ring
  show (if (encodeRows img).length = img.length * (img.headD []).length * 3 then
      some (decodeRows (img.headD []).length img.length (encodeRows img)) else none) =
    some img
  rw [if_pos hlen, decodeRows_encodeRows img (img.headD []).length hrect]

/-- Witness for C8 at a concrete 2×2 image. -/
theorem png_roundtrip_witness :
    Rect [[(1, 2, 3), (4, 5, 6)], [(7, 8, 9), (10, 11, 12)]] ∧
    ValidImage [[(1, 2, 3), (4, 5, 6)], [(7, 8, 9), (10, 11, 12)]] ∧
    imdecodePng (imencodePng [[(1, 2, 3), (4, 5, 6)], [(7, 8, 9), (10, 11, 12)]]) =
      some [[(1, 2, 3), (4, 5, 6)], [(7, 8, 9), (10, 11, 12)]] :=
  ⟨by decide, by decide, png_roundtrip _ (by decide) (by decide)⟩

/-! ## Claim C4 -/

/-- Width of the first row is unchanged by the BGR conversion. -/
theorem map_headD_length (img : Img) :
    ((img.map (List.map bgrOfRgb)).headD []).length = (img.headD []).length := by
  cases img with
  | nil => rfl
  | cons r rs => simp

/-- Pixel lookup commutes with the BGR conversion. -/
theorem getPx_map_bgr (img : Img) (i j : Nat) :
    getPx (img.map (List.map bgrOfRgb)) i j = bgrOfRgb (getPx img i j) := by
  unfold getPx
  have h1 : (img.map (List.map bgrOfRgb)).getD i [] = List.map bgrOfRgb (img.getD i []) :=
    getD_map (List.map bgrOfRgb) img i []
  rw [h1]
  exact getD_map bgrOfRgb (img.getD i []) j (0, 0, 0)

/-- Resizing commutes with the BGR conversion. -/
theorem cvResize_map_bgr (img : Img) (tw th : Nat) :
    cvResize (img.map (List.map bgrOfRgb)) tw th =
      (cvResize img tw th).map (List.map bgrOfRgb) := by
  unfold cvResize
  rw [List.map_map]
  congr 1
  funext i
  rw [Function.comp_apply, List.map_map]
  congr 1
  funext j
  rw [Function.comp_apply, List.length_map, map_headD_length]
  exact getPx_map_bgr img _ _

/-- The channel mean is invariant under the BGR channel permutation. -/
theorem gray_bgr (p : Pixel) : grayOf (bgrOfRgb p) = grayOf p := by
  show (p.2.2 + p.2.1 + p.1) / 3 = (p.1 + p.2.1 + p.2.2) / 3
  exact congrArg (fun x => x / 3) (by omega)

set_option maxRecDepth 100000 in
/-- Claim C4 as stated is false: on a concrete valid image, the heatmap
the program displays and stores differs from the overlay the
specification describes (grayscale, full-range normalization, palette,
60/40 alpha blend over the resized original) — the program applies no
intensity normalization and no alpha blend.  The two images differ
already at pixel (0,0). -/
theorem heatmap_not_spec_overlay_counterexample :
    ValidImage imgC4 ∧ heatmapOf imgC4 ≠ specOverlay imgC4 := by
  refine ⟨by decide, fun heq => ?_⟩
  have h0 := congrArg (fun m : Img => (m.headD []).headD (0, 0, 0)) heq
  exact absurd h0 (by decide)

/-- Claim C4 amended: the visualizer's overlay is a deterministic pure
function of the input image alone — the fixed palette applied to the
per-pixel channel mean of the 128×128 resize of the input, a 128×128
image; it never consults the classifier, but it performs no intensity
normalization and no 60/40 alpha blend over the resized original. -/
theorem heatmap_palette_of_gray (img : Img) :
    (heatmapOf img).length = 128 ∧
    (∀ row ∈ heatmapOf img, row.length = 128) ∧
    heatmapOf img =
      (cvResize img 128 128).map fun row => row.map fun p => colormapJet (grayOf p) := by
  refine ⟨?_, ?_, ?_⟩
  · simp [heatmapOf, resizedOf, cvResize]
  · intro row hrow
    rw [heatmapOf] at hrow
    obtain ⟨row₀, hrow₀, rfl⟩ := List.mem_map.mp hrow
    rw [resizedOf, cvResize] at hrow₀
    obtain ⟨i, _, rfl⟩ := List.mem_map.mp hrow₀
    simp
  · rw [heatmapOf, resizedOf, cvResize_map_bgr, List.map_map]
    congr 1
    funext row
    rw [Function.comp_apply, List.map_map]
    congr 1
    funext p
    rw [Function.comp_apply, gray_bgr]
